import Mathlib

/-!
Verification development for the Quest-POC RSVP / QR check-in repository.

The repository has three relevant source units:
* the RSVP generator page (token generation `makeToken`, form submit
  `handleSubmit` writing the record with `setDoc` and rendering a QR code
  from a JSON payload);
* the check-in scanner page (decode callback with a cooldown gate and an
  `isProcessing` busy flag, payload classification via `JSON.parse`, and
  `handleCheckIn` performing a read followed by an unconditional
  `updateDoc`);
* a plain scanner component sharing the identical cooldown-gate logic.

Everything below is a shallow embedding of that code: asynchronous
Firestore state is passed explicitly as a `Store` value, `Date.now()` and
`serverTimestamp()` become explicit `Nat` arguments, and the browser's
`JSON.parse` / `JSON.stringify` (platform primitives used by the code for
the payload wire format) are modelled by an executable JSON parser and
printer below.
-/

namespace Quest

/-! ## JSON values

Model of the JavaScript JSON data the scanner handles.  Numbers are kept
as their source lexemes: no claim below inspects a numeric value, and this
avoids modelling IEEE doubles.  Object fields keep their textual order, as
`JSON.parse` builds properties in insertion order with the last duplicate
key winning.
-/

inductive Json where
  | null
  | bool (b : Bool)
  | num (lexeme : List Char)
  | str (s : List Char)
  | arr (elems : List Json)
  | obj (fields : List (List Char × Json))

/-- Last-wins lookup over object fields: with duplicate keys `JSON.parse`
keeps the last occurrence. -/
def lookupLast : List (List Char × Json) → List Char → Option Json
  | [], _ => none
  | (k, v) :: rest, key =>
    match lookupLast rest key with
    | some r => some r
    | none => if k = key then some v else none

/-- Property access `j.k` as the scanner uses it (`qrData.t`,
`qrData.token`): a field of an object, `undefined` (here `none`) on
non-objects.  Access on `null` throws in JavaScript; the classifier below
models that throw at its call site. -/
def Json.getField : Json → String → Option Json
  | .obj fields, k => lookupLast fields k.data
  | _, _ => none

/-- Truthiness of a parsed JSON number under JavaScript `ToBoolean`: zero
is falsy.  A decimal lexeme denotes zero exactly when its mantissa has no
nonzero digit.  (Double underflow such as `1e-400` is not modelled; no
payload in this repository carries numeric fields that reach a truthiness
test.) -/
def jsonNumTruthy (lexeme : List Char) : Bool :=
  (lexeme.takeWhile fun c => !(c = 'e' || c = 'E')).any fun c => '1' ≤ c && c ≤ '9'

/-- JavaScript `ToBoolean` on a parsed JSON value, used by the scanner's
`qrData.token` test. -/
def Json.truthy : Json → Bool
  | .null => false
  | .bool b => b
  | .num lex => jsonNumTruthy lex
  | .str s => !s.isEmpty
  | .arr _ => true
  | .obj _ => true

/-- Truthiness of a possibly-missing property (`undefined` is falsy). -/
def truthyOpt : Option Json → Bool
  | none => false
  | some v => Json.truthy v

/-! ## JSON parsing (model of `JSON.parse`) -/

/-- JSON insignificant whitespace. -/
def isJsonWs (c : Char) : Bool :=
  c = ' ' || c = '\t' || c = '\n' || c = '\r'

def skipWs : List Char → List Char
  | [] => []
  | c :: rest => if isJsonWs c then skipWs rest else c :: rest

/-- Value of one hexadecimal digit (both cases accepted, as in JSON). -/
def hexDigitVal (c : Char) : Option Nat :=
  if '0' ≤ c ∧ c ≤ '9' then some (c.toNat - 48)
  else if 'a' ≤ c ∧ c ≤ 'f' then some (c.toNat - 87)
  else if 'A' ≤ c ∧ c ≤ 'F' then some (c.toNat - 55)
  else none

/-- Value of a four-hex-digit escape body. -/
def hex4 (a b c d : Char) : Option Nat :=
  match hexDigitVal a, hexDigitVal b, hexDigitVal c, hexDigitVal d with
  | some w, some x, some y, some z => some (((w * 16 + x) * 16 + y) * 16 + z)
  | _, _, _, _ => none

/-- The single-character escapes JSON strings allow. -/
def escCharOf (e : Char) : Option Char :=
  if e = '"' then some '"'
  else if e = '\\' then some '\\'
  else if e = '/' then some '/'
  else if e = 'b' then some (Char.ofNat 8)
  else if e = 'f' then some (Char.ofNat 12)
  else if e = 'n' then some '\n'
  else if e = 'r' then some '\r'
  else if e = 't' then some '\t'
  else none

/-- Parses the body of a JSON string literal, after the opening quote,
returning the decoded characters and the input remaining after the
closing quote.  Each `\uXXXX` escape decodes to the character of its code
value; a Lean `Char` is a unicode scalar, so the UTF-16 surrogate halves
`JSON.parse` would pair up degrade through `Char.ofNat`'s fallback — no
payload of this repository contains them (`JSON.stringify` only emits
`\u00xx` escapes for control characters here). -/
def parseStringBody : List Char → Option (List Char × List Char)
  | [] => none
  | c :: rest =>
    if c = '"' then some ([], rest)
    else if c = '\\' then
      match rest with
      | [] => none
      | e :: rest2 =>
        if e = 'u' then
          match rest2 with
          | a :: b :: c2 :: d :: rest3 =>
            (match hex4 a b c2 d with
            | some n => (parseStringBody rest3).map fun p => (Char.ofNat n :: p.1, p.2)
            | none => none)
          | _ => none
        else
          match escCharOf e with
          | some ch => (parseStringBody rest2).map fun p => (ch :: p.1, p.2)
          | none => none
    else if c.toNat < 0x20 then none
    else (parseStringBody rest).map fun p => (c :: p.1, p.2)

/-- Longest digit run. -/
def lexDigits (cs : List Char) : List Char × List Char :=
  cs.span (·.isDigit)

/-- Integer part of a JSON number: `0`, or a nonzero digit followed by
digits (JSON rejects leading zeroes). -/
def lexInt : List Char → Option (List Char × List Char)
  | [] => none
  | c :: rest =>
    if c = '0' then some (['0'], rest)
    else
      match lexDigits (c :: rest) with
      | ([], _) => none
      | (ds, r) => some (ds, r)

/-- Optional fractional part. -/
def lexFrac : List Char → Option (List Char × List Char)
  | [] => some ([], [])
  | c :: rest =>
    if c = '.' then
      match lexDigits rest with
      | ([], _) => none
      | (ds, r) => some ('.' :: ds, r)
    else some ([], c :: rest)

/-- Optional exponent part. -/
def lexExp : List Char → Option (List Char × List Char)
  | [] => some ([], [])
  | c :: rest =>
    if c = 'e' ∨ c = 'E' then
      let sgnSplit : List Char × List Char :=
        match rest with
        | [] => ([], [])
        | s :: r => if s = '+' then (['+'], r) else if s = '-' then (['-'], r) else ([], s :: r)
      match lexDigits sgnSplit.2 with
      | ([], _) => none
      | (ds, r) => some (c :: sgnSplit.1 ++ ds, r)
    else some ([], c :: rest)

/-- Lexes a JSON number, returning its lexeme and the remaining input. -/
def parseNumber (cs : List Char) : Option (List Char × List Char) :=
  let (sgn, cs1) : List Char × List Char :=
    match cs with
    | [] => ([], [])
    | c :: rest => if c = '-' then (['-'], rest) else ([], c :: rest)
  match lexInt cs1 with
  | none => none
  | some (ip, cs2) =>
    match lexFrac cs2 with
    | none => none
    | some (fp, cs3) =>
      match lexExp cs3 with
      | none => none
      | some (ep, cs4) => some (sgn ++ ip ++ fp ++ ep, cs4)

/-- Recognises a three-character literal tail (`rue` of `true`, `ull` of
`null`) and yields the given value. -/
def lexLit3 (x y z : Char) (j : Json) : List Char → Option (Json × List Char)
  | c1 :: c2 :: c3 :: rest => if c1 = x ∧ c2 = y ∧ c3 = z then some (j, rest) else none
  | _ => none

/-- Recognises a four-character literal tail (`alse` of `false`) and
yields the given value. -/
def lexLit4 (w x y z : Char) (j : Json) : List Char → Option (Json × List Char)
  | c1 :: c2 :: c3 :: c4 :: rest =>
    if c1 = w ∧ c2 = x ∧ c3 = y ∧ c4 = z then some (j, rest) else none
  | _ => none

mutual

/-- Recursive-descent JSON value parser.  `fuel` bounds the recursion;
the top-level wrapper supplies fuel larger than any valid input can
consume. -/
def parseValue : Nat → List Char → Option (Json × List Char)
  | 0, _ => none
  | fuel + 1, cs =>
    match cs with
    | [] => none
    | c :: rest =>
      if c = '{' then (parseMembersFirst fuel (skipWs rest)).map fun p => (.obj p.1, p.2)
      else if c = '[' then
        (parseElementsFirst fuel (skipWs rest)).map fun p => (.arr p.1, p.2)
      else if c = '"' then (parseStringBody rest).map fun p => (.str p.1, p.2)
      else if c = 't' then lexLit3 'r' 'u' 'e' (.bool true) rest
      else if c = 'f' then lexLit4 'a' 'l' 's' 'e' (.bool false) rest
      else if c = 'n' then lexLit3 'u' 'l' 'l' .null rest
      else (parseNumber (c :: rest)).map fun p => (.num p.1, p.2)

/-- After `{` and whitespace: either the empty object's `}` or a
nonempty member list. -/
def parseMembersFirst : Nat → List Char → Option (List (List Char × Json) × List Char)
  | 0, _ => none
  | fuel + 1, cs =>
    match cs with
    | [] => none
    | c :: rest => if c = '}' then some ([], rest) else parseMembers fuel (c :: rest)

/-- Parses a nonempty member list of a JSON object, consuming the closing
brace. -/
def parseMembers : Nat → List Char → Option (List (List Char × Json) × List Char)
  | 0, _ => none
  | fuel + 1, cs =>
    match cs with
    | [] => none
    | c :: rest =>
      if c = '"' then
        match parseStringBody rest with
        | none => none
        | some (key, rest2) =>
          match skipWs rest2 with
          | [] => none
          | d :: rest3 =>
            if d = ':' then
              match parseValue fuel (skipWs rest3) with
              | none => none
              | some (v, rest4) =>
                match skipWs rest4 with
                | [] => none
                | s :: rest5 =>
                  if s = ',' then
                    (parseMembers fuel (skipWs rest5)).map fun p => ((key, v) :: p.1, p.2)
                  else if s = '}' then some ([(key, v)], rest5)
                  else none
            else none
      else none

/-- After `[` and whitespace: either the empty array's `]` or a nonempty
element list. -/
def parseElementsFirst : Nat → List Char → Option (List Json × List Char)
  | 0, _ => none
  | fuel + 1, cs =>
    match cs with
    | [] => none
    | c :: rest => if c = ']' then some ([], rest) else parseElements fuel (c :: rest)

/-- Parses a nonempty element list of a JSON array, consuming the closing
bracket. -/
def parseElements : Nat → List Char → Option (List Json × List Char)
  | 0, _ => none
  | fuel + 1, cs =>
    match parseValue fuel (skipWs cs) with
    | none => none
    | some (v, rest) =>
      match skipWs rest with
      | [] => none
      | s :: rest2 =>
        if s = ',' then (parseElements fuel (skipWs rest2)).map fun p => (v :: p.1, p.2)
        else if s = ']' then some ([v], rest2)
        else none

end

/-- Model of `JSON.parse`: parse one value, allowing surrounding
whitespace, rejecting trailing content.  The fuel `2 * length + 2`
dominates what any input can consume: every recursion level eats input
characters. -/
def Json.parse (s : String) : Option Json :=
  match parseValue (2 * s.length + 2) (skipWs s.data) with
  | some (v, rest) => if skipWs rest = [] then some v else none
  | none => none

/-! ## JSON printing (model of `JSON.stringify` on the RSVP payload)

`JSON.stringify` quotes strings escaping `"`, `\`, the five named control
escapes, and remaining control characters as `\u00xx` with lowercase hex;
it prints members in property order with no added whitespace.  The RSVP
payload built at `handleSubmit` lines 100–108 is one flat object of string
and boolean fields, so only those value shapes are printed.
-/

/-- Lowercase hexadecimal digit, as `Number.prototype.toString(16)`
produces inside `\u00xx` escapes. -/
def hexDigitChar (n : Nat) : Char :=
  if n < 10 then Char.ofNat (48 + n) else Char.ofNat (87 + n)

/-- How `JSON.stringify` escapes one character inside a string literal. -/
def escapeChar (c : Char) : List Char :=
  if c = '"' then ['\\', '"']
  else if c = '\\' then ['\\', '\\']
  else if c = Char.ofNat 8 then ['\\', 'b']
  else if c = '\t' then ['\\', 't']
  else if c = '\n' then ['\\', 'n']
  else if c = Char.ofNat 12 then ['\\', 'f']
  else if c = '\r' then ['\\', 'r']
  else if c.toNat < 0x20 then
    ['\\', 'u', '0', '0', hexDigitChar (c.toNat / 16), hexDigitChar (c.toNat % 16)]
  else [c]

/-- Body of a printed string literal. -/
def printStringBody (s : List Char) : List Char :=
  (s.map escapeChar).flatten

/-- A printed string literal, quotes included. -/
def printStringLit (s : List Char) : List Char :=
  '"' :: printStringBody s ++ ['"']

/-- Prints one member value of the RSVP payload.  The payload object is
flat: its values are strings and one boolean, so nested arrays/objects
never occur (they print as nothing here, a case no payload reaches). -/
def printFlatValue : Json → List Char
  | .str s => printStringLit s
  | .bool true => 't' :: 'r' :: 'u' :: 'e' :: []
  | .bool false => 'f' :: 'a' :: 'l' :: 's' :: 'e' :: []
  | .null => 'n' :: 'u' :: 'l' :: 'l' :: []
  | .num lex => lex
  | .arr _ => []
  | .obj _ => []

/-- Prints a nonempty member list, comma separated. -/
def printMembers : List (List Char × Json) → List Char
  | [] => []
  | [(k, v)] => printStringLit k ++ ':' :: printFlatValue v
  | (k, v) :: rest => printStringLit k ++ ':' :: printFlatValue v ++ ',' :: printMembers rest

/-! ## Data model

The Firestore document written by the generator (`handleSubmit`,
`src/unnamed/part_000` lines 87–97).  Firestore documents are schemaless;
`checkedInAt` and `checkedInBy` do not exist on a freshly registered
record (`Option` here) and are only written by the scanner's check-in
update.  Times (`serverTimestamp()`, `new Date()`) are modelled as `Nat`.
-/

structure RsvpRecord where
  t : String
  token : String
  name : String
  email : String
  phone : String
  coming : Bool
  status : String
  createdAt : Nat
  checkedInAt : Option Nat
  checkedInBy : Option String
deriving DecidableEq

/-- The `rsvps` collection: a map from document id (the token) to the
document, when present. -/
def Store : Type := String → Option RsvpRecord

/-- Model of `setDoc(doc(db, "rsvps", token), record)`: an unconditional
upsert — the document is written whether or not one already exists. -/
def setDocStore (store : Store) (token : String) (r : RsvpRecord) : Store :=
  fun s => if s = token then some r else store s

/-! ## Token generation (`makeToken`, `src/unnamed/part_000` lines 24–30) -/

/-- The fixed 62-symbol alphabet of `makeToken`. -/
def alphabet : String :=
  "0123456789abcdefghijklmnopqrstuvwxyzABCDEFGHIJKLMNOPQRSTUVWXYZ"

/-- The default of `makeToken`'s `len` parameter (`len = 16`). -/
def makeTokenDefaultLen : Nat := 16

/-- Model of `makeToken(len)`: draws `len` bytes from
`crypto.getRandomValues` — the cryptographically secure source is
externalised as the `randByte` oracle — and maps each byte to
`alphabet[b % alphabet.length]`, joined with no separator.  JavaScript
indexing is in range here since `b % 62 < 62`; the `getD` default is
never reached. -/
def makeToken (len : Nat) (randByte : Nat → Nat) : String :=
  ⟨(List.range len).map fun i => alphabet.data.getD (randByte i % alphabet.length) 'X'⟩

/-! ## Registration (`handleSubmit`, `src/unnamed/part_000` lines 80–124) -/

structure FormData where
  name : String
  email : String
  phone : String
  confirmComing : Bool
deriving DecidableEq

/-- Whitespace removed by JavaScript `String.prototype.trim` (the ASCII
classes; the exotic unicode space characters play no role here). -/
def isTrimWs (c : Char) : Bool :=
  c = ' ' || c = '\t' || c = '\n' || c = '\r' || c = Char.ofNat 11 || c = Char.ofNat 12

/-- Model of the platform primitive `String.prototype.trim`: strips
leading and trailing whitespace. -/
def jsTrim (s : String) : String :=
  ⟨((s.data.dropWhile isTrimWs).reverse.dropWhile isTrimWs).reverse⟩

/-- The record literal written by `handleSubmit` (lines 87–96): trimmed
identity fields, `coming` from the checkbox, `status: "invited"`,
`createdAt: serverTimestamp()`. -/
def mkRecord (token : String) (fd : FormData) (now : Nat) : RsvpRecord :=
  { t := "rsvp"
    token := token
    name := jsTrim fd.name
    email := jsTrim fd.email
    phone := jsTrim fd.phone
    coming := fd.confirmComing
    status := "invited"
    createdAt := now
    checkedInAt := none
    checkedInBy := none }

/-- The compact QR payload of `handleSubmit` lines 100–108:
`JSON.stringify` of `t`, `token` and the redundant `name`/`email`/
`phone`/`coming` fields, in that property order. -/
def payloadFields (r : RsvpRecord) : List (List Char × Json) :=
  [("t".data, .str "rsvp".data),
   ("token".data, .str r.token.data),
   ("name".data, .str r.name.data),
   ("email".data, .str r.email.data),
   ("phone".data, .str r.phone.data),
   ("coming".data, .bool r.coming)]

/-- `serialize`: the payload string encoded into the QR image. -/
def serializePayload (r : RsvpRecord) : String :=
  ⟨'{' :: printMembers (payloadFields r) ++ ['}']⟩

/-- Outcome surfaced by `handleSubmit`: the success path stores the QR
url and token, the `catch` sets a "Failed to generate QR" message. -/
inductive SubmitOutcome where
  | saved (token : String)
  | failedMsg
deriving DecidableEq

/-- Model of `handleSubmit`'s `try` block after validation: make the
token, `await setDoc` (the `setDocOk` oracle is the write's fate — on
rejection the store is unchanged and control jumps to `catch`), then
render the QR from the serialized payload (the `qrOk` oracle is
`QRCode.toDataURL`'s fate).  Failures reach the shared `catch`, which
reports failure; no step undoes the store write. -/
def handleSubmitTry (store : Store) (fd : FormData) (now : Nat)
    (randByte : Nat → Nat) (setDocOk qrOk : Bool) : SubmitOutcome × Store :=
  let token := makeToken 16 randByte
  if setDocOk then
    let store2 := setDocStore store token (mkRecord token fd now)
    if qrOk then (.saved token, store2) else (.failedMsg, store2)
  else (.failedMsg, store)

/-! ## Check-in coordinator (`handleCheckIn`, `src/unnamed/part_001`
lines 36–94)

The source awaits a `getDoc` read and later an `updateDoc` write; the
store value at each of the two suspension points is passed explicitly
(`readS`, `writeS`), so claims about the state at write time are
statable.  The sequential call has `writeS = readS`.
-/

/-- How `handleCheckIn` concludes: `succeeded` carries the record the
read returned (its `name` feeds the success status), `alreadyCheckedIn`
likewise, and every thrown error lands in the shared `catch` with its
message. -/
inductive CheckInOutcome where
  | succeeded (r : RsvpRecord)
  | alreadyCheckedIn (r : RsvpRecord)
  | checkInFailed (msg : String)
deriving DecidableEq

/-- The field patch of the `updateDoc` call (lines 63–68): exactly
`coming`, `status`, `checkedInAt` and `checkedInBy`; all other document
fields are untouched. -/
def checkInPatch (now : Nat) (r : RsvpRecord) : RsvpRecord :=
  { r with
    coming := true
    status := "checked_in"
    checkedInAt := some now
    checkedInBy := some "scanner" }

/-- Model of `handleCheckIn` with the store state at the read
(`readS`) and at the write (`writeS`) explicit.  The guard `if (!token)
throw`, the `getDoc` read, the `status === "checked_in"` early return,
and the unconditional `updateDoc` patch (which itself fails only when the
document is missing at write time — it checks no status). -/
def handleCheckInAt (readS writeS : Store) (token : String) (now : Nat) :
    CheckInOutcome × Store :=
  if token = "" then (.checkInFailed "Invalid QR code: No token found", writeS)
  else
    match readS token with
    | none => (.checkInFailed "RSVP not found", writeS)
    | some r =>
      if r.status = "checked_in" then (.alreadyCheckedIn r, writeS)
      else
        match writeS token with
        | none => (.checkInFailed "No document to update", writeS)
        | some rw => (.succeeded r, setDocStore writeS token (checkInPatch now rw))

/-- `handleCheckIn` as the scanner calls it: no concurrent writer between
its read and its write. -/
def handleCheckIn (store : Store) (token : String) (now : Nat) :
    CheckInOutcome × Store :=
  handleCheckInAt store store token now

/-! ## Scan classification (`start`'s decode callback,
`src/unnamed/part_001` lines 119–146) -/

/-- The three ways the callback treats a decoded text after the cooldown
gate: dispatch `handleCheckIn(qrData)`, report "❌ Invalid RSVP QR code"
with `onResult(text)`, or report "❌ Not an RSVP QR code" with
`onResult(text)`. -/
inductive ScanClass where
  | dispatch (qrData : Json)
  | invalid (raw : String)
  | foreign (raw : String)

/-- JavaScript `qrData.t === "rsvp"`: strict equality against a string
literal holds exactly for an equal string value. -/
def isRsvpTag : Option Json → Bool
  | some (.str s) => s = "rsvp".data
  | _ => false

/-- The classification the decode callback performs: `JSON.parse` inside
`try`; on success the test `qrData.t === "rsvp" && qrData.token`.  A text
parsing to JSON `null` is classified foreign: `qrData.t` on `null` throws
a `TypeError`, caught by the same `catch (parseError)` branch as a syntax
error. -/
def classify (text : String) : ScanClass :=
  match Json.parse text with
  | none => .foreign text
  | some .null => .foreign text
  | some j =>
    if isRsvpTag (j.getField "t") && truthyOpt (j.getField "token") then .dispatch j
    else .invalid text

/-! ## Cooldown gate and scan-loop state

The gate is identical in both scanner files (`src/unnamed/part_001`
lines 120–123, `src/unnamed/part_002` lines 52–56): a decode hit earlier
than `nextAllowedRef` returns immediately; an accepted hit advances
`nextAllowedRef` to `now + cooldownMs`.
-/

/-- One decode hit against the gate: `(accepted, new nextAllowed)`. -/
def gateStep (cooldownMs nextAllowed now : Nat) : Bool × Nat :=
  if now < nextAllowed then (false, nextAllowed) else (true, now + cooldownMs)

/-- The gate over a sequence of decode-hit times: the acceptance verdict
of each hit and the final deadline. -/
def gateRun (cooldownMs : Nat) (nextAllowed : Nat) : List Nat → List Bool × Nat
  | [] => ([], nextAllowed)
  | t :: ts =>
    match gateStep cooldownMs nextAllowed t with
    | (ok, na) =>
      match gateRun cooldownMs na ts with
      | (oks, naF) => (ok :: oks, naF)

/-- The mutable state of the check-in scanner's loop: the `nextAllowedRef`
ref (live — refs are shared across renders) and the `isProcessing` React
state.  `busy` models the live `isProcessing` value: it drives the
processing overlay and button disabling, is set by `setIsProcessing(true)`
at the start of `handleCheckIn` and cleared by its `finally` — but the
registered decode callback never observes it (see `scanStep`). -/
structure ScanState where
  nextAllowed : Nat
  busy : Bool
deriving DecidableEq

/-- The two event sources driving the loop: a decode hit from the camera
callback, and the resolution of an in-flight `handleCheckIn` (whose
`finally` runs whatever the outcome). -/
inductive ScanEvent where
  | decodeHit (now : Nat) (text : String)
  | checkInResolved (outcome : CheckInOutcome)

/-- What a step may emit: a check-in dispatch or a report of the raw
text through `onResult`. -/
inductive ScanAction where
  | dispatchCheckIn (qrData : Json)
  | reportInvalid (raw : String)
  | reportForeign (raw : String)

/-- One step of the check-in scanner's decode loop
(`src/unnamed/part_001`).  The decode callback guards with
`if (result && !isProcessing)` (line 120), but `isProcessing` there is
not the live state: the callback is registered exactly once, inside
`start` (the `decodeFromConstraints` call at line 109), and closes over
the `const isProcessing` of that render — necessarily `false`, since the
Start button is disabled while processing.  Later `setIsProcessing`
calls re-render and rebuild `start` (its dependency array includes
`isProcessing`), but the zxing reader keeps invoking the originally
registered callback, so the guard forever tests that frozen value —
modelled here as the `capturedIsProcessing` parameter.  `nextAllowedRef`
is a ref and is live.  An accepted, parsed RSVP hit calls
`handleCheckIn`, whose first synchronous statement sets the live
`isProcessing` true; the resolution event models `handleCheckIn`'s
`finally`, which clears it on every path, for every outcome. -/
def scanStep (capturedIsProcessing : Bool) (cooldownMs : Nat) (st : ScanState)
    (ev : ScanEvent) : ScanState × Option ScanAction :=
  match ev with
  | .checkInResolved _ => ({ st with busy := false }, none)
  | .decodeHit now text =>
    if capturedIsProcessing then (st, none)
    else
      match gateStep cooldownMs st.nextAllowed now with
      | (false, _) => (st, none)
      | (true, na) =>
        let st1 : ScanState := { st with nextAllowed := na }
        match classify text with
        | .dispatch j => ({ st1 with busy := true }, some (.dispatchCheckIn j))
        | .invalid raw => (st1, some (.reportInvalid raw))
        | .foreign raw => (st1, some (.reportForeign raw))

/-- The decode callback as the program actually registers it: `start`
runs from a render in which `isProcessing` is `false`, so the closure's
captured value is `false` for the callback's whole lifetime. -/
def scanStepRegistered (cooldownMs : Nat) (st : ScanState) (ev : ScanEvent) :
    ScanState × Option ScanAction :=
  scanStep false cooldownMs st ev

/-! ## Round-trip lemmas

The generator prints the payload with `JSON.stringify` and the scanner
re-reads it with `JSON.parse`; these lemmas show the parse of a printed
payload recovers it exactly.
-/

theorem skipWs_cons (c : Char) (l : List Char) (h : isJsonWs c = false) :
    skipWs (c :: l) = c :: l := by
  simp [skipWs, h]

theorem hexDigitVal_hexDigitChar (n : Nat) (h : n < 16) :
    hexDigitVal (hexDigitChar n) = some n := by
  interval_cases n <;> decide

theorem hex4_encode (n : Nat) (h : n < 0x20) :
    hex4 '0' '0' (hexDigitChar (n / 16)) (hexDigitChar (n % 16)) = some n := by
  have h1 : n / 16 < 16 := by omega
  have h2 : n % 16 < 16 := by omega
  have e0 : hexDigitVal '0' = some 0 := by decide
  simp only [hex4, e0, hexDigitVal_hexDigitChar _ h1, hexDigitVal_hexDigitChar _ h2,
    Option.some.injEq]
  omega

/-- Parsing a printed string body (with its closing quote) recovers the
original characters and leaves the remaining input untouched. -/
theorem parseStringBody_roundtrip (s rest : List Char) :
    parseStringBody (printStringBody s ++ '"' :: rest) = some (s, rest) := by
  induction s with
  | nil =>
    simp only [printStringBody, List.map_nil, List.flatten_nil, List.nil_append]
    rw [parseStringBody.eq_def]
    simp
  | cons c s ih =>
    have hsplit : printStringBody (c :: s) = escapeChar c ++ printStringBody s := by
      simp [printStringBody]
    rw [hsplit]
    unfold escapeChar
    split_ifs with h1 h2 h3 h4 h5 h6 h7 h8
    · subst h1; rw [parseStringBody.eq_def]; simp [escCharOf, ih]
    · subst h2; rw [parseStringBody.eq_def]; simp [escCharOf, ih]
    · subst h3; rw [parseStringBody.eq_def]; simp [escCharOf, ih]
    · subst h4; rw [parseStringBody.eq_def]; simp [escCharOf, ih]
    · subst h5; rw [parseStringBody.eq_def]; simp [escCharOf, ih]
    · subst h6; rw [parseStringBody.eq_def]; simp [escCharOf, ih]
    · subst h7; rw [parseStringBody.eq_def]; simp [escCharOf, ih]
    · -- control character, printed as a `\u00xx` escape
      rw [parseStringBody.eq_def]
      simp [hex4_encode c.toNat h8, ih, Char.ofNat_toNat]
    · -- ordinary character, printed literally
      rw [parseStringBody.eq_def]
      simp [h1, h2, h8, ih]

/-- A printed form `P` of a JSON value `v` that any sufficient fuel
parses back to `v`, whatever input follows, and whose head survives
whitespace skipping. -/
def ParsesVal (P : List Char) (v : Json) : Prop :=
  (∀ rest, skipWs (P ++ rest) = P ++ rest) ∧
  ∀ (f : Nat) (rest : List Char), parseValue (f + 1) (P ++ rest) = some (v, rest)

theorem parsesVal_strLit (s : List Char) : ParsesVal (printStringLit s) (.str s) := by
  constructor
  · intro rest
    simp only [printStringLit, List.cons_append]
    exact skipWs_cons _ _ (by decide)
  · intro f rest
    simp only [printStringLit, List.cons_append, List.append_assoc, List.singleton_append]
    rw [parseValue.eq_def]
    simp [parseStringBody_roundtrip]

theorem parsesVal_true : ParsesVal ('t' :: 'r' :: 'u' :: 'e' :: []) (.bool true) := by
  constructor
  · intro rest
    exact skipWs_cons _ _ (by decide)
  · intro f rest
    rw [parseValue.eq_def]
    simp [lexLit3]

theorem parsesVal_false : ParsesVal ('f' :: 'a' :: 'l' :: 's' :: 'e' :: []) (.bool false) := by
  constructor
  · intro rest
    exact skipWs_cons _ _ (by decide)
  · intro f rest
    rw [parseValue.eq_def]
    simp [lexLit4]

theorem parsesVal_bool (b : Bool) : ParsesVal (printFlatValue (.bool b)) (.bool b) := by
  cases b
  · exact parsesVal_false
  · exact parsesVal_true

theorem skipWs_printMembers (kv : List Char × Json) (l : List (List Char × Json))
    (X : List Char) :
    skipWs (printMembers (kv :: l) ++ X) = printMembers (kv :: l) ++ X := by
  obtain ⟨k, v⟩ := kv
  cases l <;>
    · simp only [printMembers, printStringLit, List.cons_append, List.append_assoc]
      exact skipWs_cons _ _ (by decide)

/-- Parsing the printed form of a nonempty member list (each value being
one this parser recovers) yields exactly those members. -/
theorem parseMembers_chain (fields : List (List Char × Json))
    (hvals : ∀ kv ∈ fields, ParsesVal (printFlatValue kv.2) kv.2) (hne : fields ≠ []) :
    ∀ (f : Nat) (rest : List Char),
      parseMembers (fields.length + f + 1) (printMembers fields ++ '}' :: rest)
        = some (fields, rest) := by
  induction fields with
  | nil => exact absurd rfl hne
  | cons kv tl ih =>
    obtain ⟨k, v⟩ := kv
    have hv : ParsesVal (printFlatValue v) v := hvals (k, v) (by simp)
    intro f rest
    cases tl with
    | nil =>
      rw [show ([(k, v)] : List (List Char × Json)).length + f + 1 = (f + 1) + 1 from by
        simp; omega]
      simp only [printMembers, printStringLit, List.cons_append, List.append_assoc,
        List.singleton_append, List.nil_append]
      rw [parseMembers.eq_def]
      have hsb := parseStringBody_roundtrip k (':' :: (printFlatValue v ++ '}' :: rest))
      have hcolon : skipWs (':' :: (printFlatValue v ++ '}' :: rest))
          = ':' :: (printFlatValue v ++ '}' :: rest) := skipWs_cons _ _ (by decide)
      have hws : skipWs (printFlatValue v ++ '}' :: rest)
          = printFlatValue v ++ '}' :: rest := hv.1 _
      have hval : parseValue (f + 1) (printFlatValue v ++ '}' :: rest)
          = some (v, '}' :: rest) := hv.2 f _
      have hbrace : skipWs ('}' :: rest) = '}' :: rest := skipWs_cons _ _ (by decide)
      simp [hsb, hcolon, hws, hval, hbrace]
    | cons kv2 tl2 =>
      have hvtl : ∀ kv ∈ kv2 :: tl2, ParsesVal (printFlatValue kv.2) kv.2 := by
        intro kv h
        exact hvals kv (List.mem_cons_of_mem _ h)
      simp only [printMembers, printStringLit, List.length_cons, List.cons_append,
        List.append_assoc, List.singleton_append]
      rw [show tl2.length + 1 + 1 + f + 1 = (tl2.length + 1 + f + 1) + 1 from by omega]
      rw [parseMembers.eq_def]
      have hsb := parseStringBody_roundtrip k
        (':' :: (printFlatValue v ++ ',' :: (printMembers (kv2 :: tl2) ++ '}' :: rest)))
      have hcolon : skipWs
            (':' :: (printFlatValue v ++ ',' :: (printMembers (kv2 :: tl2) ++ '}' :: rest)))
          = ':' :: (printFlatValue v ++ ',' :: (printMembers (kv2 :: tl2) ++ '}' :: rest)) :=
        skipWs_cons _ _ (by decide)
      have hws : skipWs (printFlatValue v ++ ',' :: (printMembers (kv2 :: tl2) ++ '}' :: rest))
          = printFlatValue v ++ ',' :: (printMembers (kv2 :: tl2) ++ '}' :: rest) := hv.1 _
      have hval : parseValue (tl2.length + 1 + f + 1)
            (printFlatValue v ++ ',' :: (printMembers (kv2 :: tl2) ++ '}' :: rest))
          = some (v, ',' :: (printMembers (kv2 :: tl2) ++ '}' :: rest)) :=
        hv.2 (tl2.length + 1 + f) _
      have hcomma : skipWs (',' :: (printMembers (kv2 :: tl2) ++ '}' :: rest))
          = ',' :: (printMembers (kv2 :: tl2) ++ '}' :: rest) := skipWs_cons _ _ (by decide)
      have hih := ih hvtl (by simp) f rest
      simp only [List.length_cons] at hih
      simp [hsb, hcolon, hws, hval, hcomma, skipWs_printMembers, hih]

/-- As `parseMembers_chain`, entered through the empty-object check. -/
theorem parseMembersFirst_chain (fields : List (List Char × Json))
    (hvals : ∀ kv ∈ fields, ParsesVal (printFlatValue kv.2) kv.2) (hne : fields ≠ [])
    (f : Nat) (rest : List Char) :
    parseMembersFirst (fields.length + f + 2) (printMembers fields ++ '}' :: rest)
      = some (fields, rest) := by
  have hchain := parseMembers_chain fields hvals hne f rest
  cases fields with
  | nil => exact absurd rfl hne
  | cons kv tl =>
    obtain ⟨k, v⟩ := kv
    obtain ⟨Y, hY⟩ : ∃ Y, printMembers ((k, v) :: tl) ++ '}' :: rest = '"' :: Y := by
      cases tl with
      | nil =>
        exact ⟨printStringBody k ++ '"' :: ':' :: (printFlatValue v ++ '}' :: rest),
          by simp [printMembers, printStringLit, List.cons_append, List.append_assoc]⟩
      | cons kv2 tl2 =>
        exact ⟨printStringBody k ++ '"' :: ':' ::
            (printFlatValue v ++ ',' :: (printMembers (kv2 :: tl2) ++ '}' :: rest)),
          by simp [printMembers, printStringLit, List.cons_append, List.append_assoc]⟩
    rw [show ((k, v) :: tl).length + f + 2 = (((k, v) :: tl).length + f + 1) + 1 from by
      omega]
    rw [parseMembersFirst.eq_def]
    rw [hY]
    have hq : ¬('"' = '}') := by decide
    simp [hq, ← hY]
    simp only [List.length_cons] at hchain
    exact hchain

/-- Every member value of the QR payload is recovered by the parser. -/
theorem payload_parsesVals (r : RsvpRecord) :
    ∀ kv ∈ payloadFields r, ParsesVal (printFlatValue kv.2) kv.2 := by
  intro kv h
  simp only [payloadFields, List.mem_cons, List.not_mem_nil, or_false] at h
  rcases h with rfl | rfl | rfl | rfl | rfl | rfl
  · exact parsesVal_strLit _
  · exact parsesVal_strLit _
  · exact parsesVal_strLit _
  · exact parsesVal_strLit _
  · exact parsesVal_strLit _
  · exact parsesVal_bool _

/-- Parsing the printed payload object recovers its six fields. -/
theorem parseValue_payload (r : RsvpRecord) (f : Nat) (rest : List Char) :
    parseValue (f + 9) ('{' :: (printMembers (payloadFields r) ++ '}' :: rest))
      = some (.obj (payloadFields r), rest) := by
  have hskip : skipWs (printMembers (payloadFields r) ++ '}' :: rest)
      = printMembers (payloadFields r) ++ '}' :: rest := by
    rw [show payloadFields r = ("t".data, Json.str "rsvp".data) ::
      [("token".data, Json.str r.token.data), ("name".data, Json.str r.name.data),
       ("email".data, Json.str r.email.data), ("phone".data, Json.str r.phone.data),
       ("coming".data, Json.bool r.coming)] from rfl]
    exact skipWs_printMembers _ _ _
  have hmf := parseMembersFirst_chain (payloadFields r) (payload_parsesVals r)
    (by simp [payloadFields]) f rest
  rw [show (payloadFields r).length = 6 from rfl] at hmf
  rw [show (6 : Nat) + f + 2 = f + 8 from by omega] at hmf
  rw [show f + 9 = (f + 8) + 1 from by omega]
  rw [parseValue.eq_def]
  simp [hskip, hmf]

/-- `JSON.parse` of the generator's `JSON.stringify` payload recovers the
payload object. -/
theorem json_parse_serializePayload (r : RsvpRecord) :
    Json.parse (serializePayload r) = some (.obj (payloadFields r)) := by
  have hdata : (serializePayload r).data
      = '{' :: (printMembers (payloadFields r) ++ '}' :: []) := rfl
  have hm : 2 ≤ (printMembers (payloadFields r)).length := by
    rw [show payloadFields r = ("t".data, Json.str "rsvp".data) ::
      [("token".data, Json.str r.token.data), ("name".data, Json.str r.name.data),
       ("email".data, Json.str r.email.data), ("phone".data, Json.str r.phone.data),
       ("coming".data, Json.bool r.coming)] from rfl]
    simp [printMembers, printStringLit, List.length_append]
    omega
  have hlen : (serializePayload r).length = (printMembers (payloadFields r)).length + 2 := by
    simp [serializePayload, String.length]
  obtain ⟨f, hf⟩ : ∃ f, 2 * (serializePayload r).length + 2 = f + 9 :=
    ⟨2 * (serializePayload r).length - 7, by omega⟩
  have hsw : skipWs ('{' :: (printMembers (payloadFields r) ++ '}' :: []))
      = '{' :: (printMembers (payloadFields r) ++ '}' :: []) := skipWs_cons _ _ (by decide)
  unfold Json.parse
  rw [hdata, hsw, hf, parseValue_payload r f []]
  simp [skipWs]

/-! ## Spec-side conditional write

The spec (§4.2, §4.5) describes the coordinator in terms of a conditional
store primitive `updateIfStatus`; the source has no such call.  The two
definitions below are the spec's wording, for comparison against the
source's `handleCheckIn`.
-/

inductive CondWriteResult where
  | applied
  | stale
  | missing
deriving DecidableEq

/-- Modelled from the spec: `updateIfStatus(token, expectedStatus,
mutation) -> applied | stale | not_found`, the compare-and-swap-style
primitive of §4.2 — the mutation becomes visible only if the record's
`status` still equals `expectedStatus` at write time.  The source never
performs such a conditional write. -/
def updateIfStatus (store : Store) (token expected : String)
    (mutation : RsvpRecord → RsvpRecord) : CondWriteResult × Store :=
  match store token with
  | none => (.missing, store)
  | some r =>
    if r.status = expected then (.applied, setDocStore store token (mutation r))
    else (.stale, store)

/-- Modelled from the spec: the §4.5 check-in algorithm — read; absent ⇒
not found; `checked_in` ⇒ already checked in; otherwise
`updateIfStatus(token, "invited", …)`, re-reading and returning
already-checked-in when the conditional update reports stale. -/
def specCheckIn (store : Store) (token : String) (now : Nat) :
    CheckInOutcome × Store :=
  match store token with
  | none => (.checkInFailed "RSVP not found", store)
  | some r =>
    if r.status = "checked_in" then (.alreadyCheckedIn r, store)
    else
      match updateIfStatus store token "invited" (checkInPatch now) with
      | (.applied, store2) => (.succeeded r, store2)
      | (.stale, store2) =>
        match store2 token with
        | some r2 => (.alreadyCheckedIn r2, store2)
        | none => (.checkInFailed "RSVP not found", store2)
      | (.missing, store2) => (.checkInFailed "RSVP not found", store2)

/-! ## Concrete fixtures for witnesses and counterexamples -/

def fdAna : FormData :=
  { name := "Ana", email := "a@x.com", phone := "+1 5551234567", confirmComing := false }

def fdBob : FormData :=
  { name := "Bob", email := "b@x.com", phone := "+2 5550000000", confirmComing := true }

/-- A registered, not yet checked-in record. -/
def invitedRec : RsvpRecord := mkRecord "tokA" fdAna 2

def invitedStore : Store := fun s => if s = "tokA" then some invitedRec else none

/-- The same document after a scanner check-in at time 4. -/
def checkedRec : RsvpRecord := checkInPatch 4 invitedRec

def checkedStore : Store := fun s => if s = "tokA" then some checkedRec else none

/-- A record whose status is `cancelled` (a value the generator's comment
on line 94 documents as part of the status enumeration). -/
def cancelledRec : RsvpRecord :=
  { t := "rsvp", token := "tokA", name := "Cara", email := "c@x.com",
    phone := "+3 5551112222", coming := false, status := "cancelled",
    createdAt := 1, checkedInAt := none, checkedInBy := none }

def cancelledStore : Store := fun s => if s = "tokA" then some cancelledRec else none

/-- A byte oracle whose token collides with `anaStore`'s existing key. -/
def zeroBytes : Nat → Nat := fun _ => 0

def anaStore : Store :=
  fun s => if s = "0000000000000000" then some (mkRecord "0000000000000000" fdAna 3) else none

/-- A demonstration registrant whose serialized payload is used by
concrete scan and round-trip witnesses. -/
def demoRec : RsvpRecord := mkRecord "abc123" fdAna 3

/-! ## Claims -/

/-- C4: the cooldown gate is a pure time-window debounce — a decode hit
earlier than the stored next-allowed timestamp is discarded regardless of
content, an accepted hit advances next-allowed to `now + cooldownMs`, and
for hits at `t, t+1, t+199, t+201` with `cooldownMs = 200` from
next-allowed 0 exactly the first and last pass. -/
theorem cooldown_gate_spec :
    (∀ cd na now : Nat, now < na → gateStep cd na now = (false, na)) ∧
    (∀ cd na now : Nat, ¬now < na → gateStep cd na now = (true, now + cd)) ∧
    (∀ t : Nat, gateRun 200 0 [t, t + 1, t + 199, t + 201]
      = ([true, false, false, true], t + 401)) := by
  refine ⟨?_, ?_, ?_⟩
  · intro cd na now h
    simp [gateStep, h]
  · intro cd na now h
    simp [gateStep, h]
  · intro t
    simp only [gateRun, gateStep,
      show ¬(t < 0) from by omega, show t + 1 < t + 200 from by omega,
      show t + 199 < t + 200 from by omega, show ¬(t + 201 < t + 200) from by omega,
      if_true, if_false, ite_true, ite_false]

theorem cooldown_gate_spec_witness :
    gateStep 200 5 3 = (false, 5) ∧ gateStep 200 5 7 = (true, 207) :=
  ⟨cooldown_gate_spec.1 200 5 3 (by decide), cooldown_gate_spec.2.1 200 5 7 (by decide)⟩

/-- C8: `makeToken` maps each of its `len` cryptographically random bytes
through `alphabet[b % alphabet.length]` into a string of exactly `len`
characters of the 62-symbol alphanumeric alphabet, with no separators;
the default length is 16. -/
theorem makeToken_spec :
    (∀ (n : Nat) (randByte : Nat → Nat), (makeToken n randByte).length = n) ∧
    (∀ (n : Nat) (randByte : Nat → Nat) (c : Char),
      c ∈ (makeToken n randByte).data → c ∈ alphabet.data) ∧
    (∀ (n : Nat) (randByte : Nat → Nat) (i : Nat), i < n →
      (makeToken n randByte).data.getD i 'X' = alphabet.data.getD (randByte i % 62) 'X') ∧
    alphabet.length = 62 ∧ makeTokenDefaultLen = 16 := by
  have hal : alphabet.length = 62 := rfl
  have halc : alphabet.data.length = 62 := rfl
  refine ⟨?_, ?_, ?_, hal, rfl⟩
  · intro n randByte
    show ((List.range n).map fun j =>
      alphabet.data.getD (randByte j % alphabet.length) 'X').length = n
    simp
  · intro n randByte c hc
    obtain ⟨i, _, rfl⟩ := List.mem_map.mp hc
    have hlt : randByte i % alphabet.length < alphabet.data.length := by
      rw [hal, halc]
      exact Nat.mod_lt _ (by omega)
    rw [List.getD_eq_getElem _ _ hlt]
    exact List.getElem_mem _
  · intro n randByte i hi
    have hbound : i < ((List.range n).map fun j =>
        alphabet.data.getD (randByte j % alphabet.length) 'X').length := by
      simpa using hi
    show ((List.range n).map fun j =>
      alphabet.data.getD (randByte j % alphabet.length) 'X').getD i 'X'
        = alphabet.data.getD (randByte i % 62) 'X'
    rw [List.getD_eq_getElem _ _ hbound]
    simp [hal]

theorem makeToken_spec_witness :
    (makeToken 3 (fun i => 100 * i)).data.getD 2 'X' = alphabet.data.getD (200 % 62) 'X' ∧
    (makeToken 3 (fun i => 100 * i)).length = 3 :=
  ⟨makeToken_spec.2.2.1 3 (fun i => 100 * i) 2 (by decide),
   makeToken_spec.1 3 (fun i => 100 * i)⟩

/-- C10: registration is not atomic with artifact generation — with the
store write succeeding and the QR rendering failing, `handleSubmit`
reports failure while the freshly created record remains persisted under
its token. -/
theorem submit_store_write_precedes_artifact :
    ∀ (store : Store) (fd : FormData) (now : Nat) (randByte : Nat → Nat),
      (handleSubmitTry store fd now randByte true false).1 = .failedMsg ∧
      (handleSubmitTry store fd now randByte true false).2 (makeToken 16 randByte)
        = some (mkRecord (makeToken 16 randByte) fd now) := by
  intro store fd now randByte
  constructor
  · simp [handleSubmitTry]
  · simp [handleSubmitTry, setDocStore]

/-- C3 counterexample: the claim says `create(token, record)` fails when a
record with that token already exists; the source's `setDoc` write instead
reports success and silently replaces Ana's existing record with Bob's at
the colliding token. -/
theorem submit_create_counterexample :
    anaStore (makeToken 16 zeroBytes) = some (mkRecord "0000000000000000" fdAna 3) ∧
    (handleSubmitTry anaStore fdBob 9 zeroBytes true true).1 = .saved "0000000000000000" ∧
    (handleSubmitTry anaStore fdBob 9 zeroBytes true true).2 "0000000000000000"
      = some (mkRecord "0000000000000000" fdBob 9) ∧
    (mkRecord "0000000000000000" fdAna 3).name = "Ana" ∧
    (mkRecord "0000000000000000" fdBob 9).name = "Bob" := by
  refine ⟨?_, ?_, ?_, ?_, ?_⟩ <;> decide

/-- C3 (amended): registration persists the record with `setDoc`, an
unconditional upsert — it reports success and overwrites whatever record
already holds that token, never failing on a duplicate; only other keys
are untouched.  Token uniqueness is therefore not enforced at the data
layer (and not checked at generation time); it rests on collision
improbability alone. -/
theorem submit_upsert (store : Store) (fd : FormData) (now : Nat) (randByte : Nat → Nat) :
    (handleSubmitTry store fd now randByte true true).1 = .saved (makeToken 16 randByte) ∧
    (handleSubmitTry store fd now randByte true true).2 (makeToken 16 randByte)
      = some (mkRecord (makeToken 16 randByte) fd now) ∧
    (∀ s, s ≠ makeToken 16 randByte →
      (handleSubmitTry store fd now randByte true true).2 s = store s) := by
  refine ⟨by simp [handleSubmitTry], by simp [handleSubmitTry, setDocStore], ?_⟩
  intro s hs
  simp [handleSubmitTry, setDocStore, hs]

theorem submit_upsert_witness :
    (handleSubmitTry anaStore fdBob 9 zeroBytes true true).2 "other" = anaStore "other" :=
  (submit_upsert anaStore fdBob 9 zeroBytes).2.2 "other" (by decide)

/-- C2: check-in is idempotent — a record already `checked_in` yields
`alreadyCheckedIn` and leaves the store untouched, and two immediately
successive check-ins of an `invited` record yield `succeeded` then
`alreadyCheckedIn` with the same `checkedInAt` (stamped by the first
call) visible in both observations. -/
theorem checkIn_idempotent :
    ∀ (store : Store) (token : String) (now1 now2 : Nat) (r : RsvpRecord),
      token ≠ "" → store token = some r →
      (r.status = "checked_in" →
        handleCheckIn store token now1 = (.alreadyCheckedIn r, store)) ∧
      (r.status = "invited" →
        (handleCheckIn store token now1).1 = .succeeded r ∧
        (handleCheckIn store token now1).2 token = some (checkInPatch now1 r) ∧
        (handleCheckIn (handleCheckIn store token now1).2 token now2).1
          = .alreadyCheckedIn (checkInPatch now1 r) ∧
        (handleCheckIn (handleCheckIn store token now1).2 token now2).2
          = (handleCheckIn store token now1).2 ∧
        (checkInPatch now1 r).checkedInAt = some now1) := by
  intro store token now1 now2 r htok hread
  constructor
  · intro hst
    simp [handleCheckIn, handleCheckInAt, htok, hread, hst]
  · intro hst
    have hne : r.status ≠ "checked_in" := by rw [hst]; decide
    have h1 : handleCheckIn store token now1
        = (.succeeded r, setDocStore store token (checkInPatch now1 r)) := by
      simp [handleCheckIn, handleCheckInAt, htok, hread, hne]
    have hlook : setDocStore store token (checkInPatch now1 r) token
        = some (checkInPatch now1 r) := by
      simp [setDocStore]
    have h2 : handleCheckIn (setDocStore store token (checkInPatch now1 r)) token now2
        = (.alreadyCheckedIn (checkInPatch now1 r),
           setDocStore store token (checkInPatch now1 r)) := by
      simp [handleCheckIn, handleCheckInAt, htok, hlook]
      rfl
    rw [h1]
    exact ⟨rfl, hlook, by rw [h2], by rw [h2], rfl⟩

theorem checkIn_idempotent_witness :
    (handleCheckIn invitedStore "tokA" 10).1 = .succeeded invitedRec ∧
    (handleCheckIn invitedStore "tokA" 10).2 "tokA" = some (checkInPatch 10 invitedRec) ∧
    (handleCheckIn (handleCheckIn invitedStore "tokA" 10).2 "tokA" 20).1
      = .alreadyCheckedIn (checkInPatch 10 invitedRec) ∧
    (handleCheckIn (handleCheckIn invitedStore "tokA" 10).2 "tokA" 20).2
      = (handleCheckIn invitedStore "tokA" 10).2 ∧
    (checkInPatch 10 invitedRec).checkedInAt = some 10 :=
  (checkIn_idempotent invitedStore "tokA" 10 20 invitedRec (by decide) (by decide)).2
    (by decide)

/-- C9: a successful check-in write patches exactly the four fields
`coming`, `status`, `checkedInAt` and `checkedInBy` — the last set to the
constant `"scanner"` and absent from any freshly registered record — and
leaves `token`, `name`, `email`, `phone`, `createdAt`, and every other
document untouched. -/
theorem checkIn_frame :
    ∀ (store : Store) (token : String) (now : Nat) (r : RsvpRecord),
      token ≠ "" → store token = some r → r.status ≠ "checked_in" →
      ((handleCheckIn store token now).2 token = some (checkInPatch now r) ∧
       (∀ s, s ≠ token → (handleCheckIn store token now).2 s = store s) ∧
       (checkInPatch now r).coming = true ∧
       (checkInPatch now r).status = "checked_in" ∧
       (checkInPatch now r).checkedInAt = some now ∧
       (checkInPatch now r).checkedInBy = some "scanner" ∧
       (checkInPatch now r).token = r.token ∧
       (checkInPatch now r).name = r.name ∧
       (checkInPatch now r).email = r.email ∧
       (checkInPatch now r).phone = r.phone ∧
       (checkInPatch now r).createdAt = r.createdAt ∧
       (∀ (tok : String) (fd : FormData) (t0 : Nat),
         (mkRecord tok fd t0).checkedInBy = none)) := by
  intro store token now r htok hread hst
  have h1 : handleCheckIn store token now
      = (.succeeded r, setDocStore store token (checkInPatch now r)) := by
    simp [handleCheckIn, handleCheckInAt, htok, hread, hst]
  rw [h1]
  refine ⟨by simp [setDocStore], ?_, rfl, rfl, rfl, rfl, rfl, rfl, rfl, rfl, rfl,
    fun _ _ _ => rfl⟩
  intro s hs
  simp [setDocStore, hs]

theorem checkIn_frame_witness :
    (handleCheckIn invitedStore "tokA" 10).2 "tokA" = some (checkInPatch 10 invitedRec) ∧
    (handleCheckIn invitedStore "tokA" 10).2 "zzz" = invitedStore "zzz" :=
  ⟨(checkIn_frame invitedStore "tokA" 10 invitedRec (by decide) (by decide)
      (by decide)).1,
   (checkIn_frame invitedStore "tokA" 10 invitedRec (by decide) (by decide)
      (by decide)).2.1 "zzz" (by decide)⟩

/-- C1 counterexample: on a record with status `cancelled` (present, not
`checked_in`), the claimed compare-and-swap would report stale and the
claimed coordinator (`specCheckIn`, modelled from the spec) re-reads and
returns already-checked-in with no write; the source's `handleCheckIn`
instead reports `succeeded` and overwrites the cancelled record to
`checked_in` — the write is not conditional on `status = "invited"` at
write time. -/
theorem checkIn_conditional_counterexample :
    cancelledStore "tokA" = some cancelledRec ∧
    cancelledRec.status = "cancelled" ∧
    (updateIfStatus cancelledStore "tokA" "invited" (checkInPatch 5)).1 = .stale ∧
    (specCheckIn cancelledStore "tokA" 5).1 = .alreadyCheckedIn cancelledRec ∧
    (specCheckIn cancelledStore "tokA" 5).2 "tokA" = some cancelledRec ∧
    (handleCheckIn cancelledStore "tokA" 5).1 = .succeeded cancelledRec ∧
    (handleCheckIn cancelledStore "tokA" 5).2 "tokA" = some (checkInPatch 5 cancelledRec) ∧
    (checkInPatch 5 cancelledRec).status = "checked_in" := by
  refine ⟨?_, ?_, ?_, ?_, ?_, ?_, ?_, ?_⟩ <;> decide

/-- C1 (amended): when the read returns a record whose status is not
`checked_in`, `handleCheckIn` performs a plain unconditional `updateDoc`:
whatever record holds the token at write time — whatever its status — is
patched to `status = "checked_in"`, `coming = true`, `checkedInAt = now`
(and `checkedInBy = "scanner"`), and the outcome is `succeeded`; there is
no compare-and-swap against `"invited"` and no stale/re-read path. -/
theorem checkIn_write_unconditional :
    ∀ (readS writeS : Store) (token : String) (now : Nat) (r rw : RsvpRecord),
      token ≠ "" → readS token = some r → r.status ≠ "checked_in" →
      writeS token = some rw →
      (handleCheckInAt readS writeS token now).1 = .succeeded r ∧
      (handleCheckInAt readS writeS token now).2 token = some (checkInPatch now rw) ∧
      (checkInPatch now rw).status = "checked_in" ∧
      (checkInPatch now rw).coming = true ∧
      (checkInPatch now rw).checkedInAt = some now := by
  intro readS writeS token now r rw htok hread hst hwrite
  have h1 : handleCheckInAt readS writeS token now
      = (.succeeded r, setDocStore writeS token (checkInPatch now rw)) := by
    simp [handleCheckInAt, htok, hread, hst, hwrite]
  rw [h1]
  exact ⟨rfl, by simp [setDocStore], rfl, rfl, rfl⟩

theorem checkIn_write_unconditional_witness :
    (handleCheckInAt invitedStore checkedStore "tokA" 10).1 = .succeeded invitedRec ∧
    (handleCheckInAt invitedStore checkedStore "tokA" 10).2 "tokA"
      = some (checkInPatch 10 checkedRec) :=
  ⟨(checkIn_write_unconditional invitedStore checkedStore "tokA" 10 invitedRec checkedRec
      (by decide) (by decide) (by decide) (by decide)).1,
   (checkIn_write_unconditional invitedStore checkedStore "tokA" 10 invitedRec checkedRec
      (by decide) (by decide) (by decide) (by decide)).2.1⟩

/-- C6 counterexample: with a check-in already in flight (live busy flag
set), a decode hit past the deadline carrying a valid RSVP payload is
not withheld — the registered callback's captured `isProcessing` is
frozen at `false`, so the hit passes the cooldown gate, advances the
deadline to `100 + 200`, and dispatches a second concurrent check-in:
nothing enforces a single outstanding check-in. -/
theorem scan_busy_counterexample :
    (⟨0, true⟩ : ScanState).busy = true ∧
    (scanStepRegistered 200 ⟨0, true⟩ (.decodeHit 100 (serializePayload demoRec))).2
      = some (.dispatchCheckIn (.obj (payloadFields demoRec))) ∧
    (scanStepRegistered 200 ⟨0, true⟩
        (.decodeHit 100 (serializePayload demoRec))).1.nextAllowed = 100 + 200 := by
  have hcls : classify (serializePayload demoRec)
      = .dispatch (.obj (payloadFields demoRec)) := rfl
  refine ⟨rfl, ?_, ?_⟩ <;>
    simp [scanStepRegistered, scanStep, gateStep, hcls]

/-- C6 (amended): while a check-in dispatch is outstanding, additional
decode hits are indeed accepted by the cooldown gate as normal — one
arriving before the next-allowed deadline is discarded, an accepted one
advances the deadline to `now + cooldownMs` — but their dispatch is not
withheld: the decode callback is registered once inside `start` and
closes over `isProcessing` frozen at `false`, so its guard never fires
and an accepted RSVP-payload hit dispatches a further check-in even
while one is in flight (each dispatch sets the live busy flag, which
the callback never consults); and the resolution of an in-flight
check-in (its `finally`) clears the busy flag whatever the outcome, so
no path leaves the busy overlay permanently set. -/
theorem scan_busy_discipline :
    (∀ (cd : Nat) (st : ScanState) (now : Nat) (text : String),
      now < st.nextAllowed →
      scanStepRegistered cd st (.decodeHit now text) = (st, none)) ∧
    (∀ (cd : Nat) (st : ScanState) (now : Nat) (text : String),
      ¬now < st.nextAllowed →
      (scanStepRegistered cd st (.decodeHit now text)).1.nextAllowed = now + cd) ∧
    (∀ (cd : Nat) (st : ScanState) (now : Nat) (text : String) (j : Json),
      ¬now < st.nextAllowed → classify text = .dispatch j →
      (scanStepRegistered cd st (.decodeHit now text)).2 = some (.dispatchCheckIn j) ∧
      (scanStepRegistered cd st (.decodeHit now text)).1.busy = true) ∧
    (∀ (cd : Nat) (st : ScanState) (o : CheckInOutcome),
      (scanStepRegistered cd st (.checkInResolved o)).1.busy = false ∧
      (scanStepRegistered cd st (.checkInResolved o)).1.nextAllowed = st.nextAllowed ∧
      (scanStepRegistered cd st (.checkInResolved o)).2 = none) := by
  refine ⟨?_, ?_, ?_, ?_⟩
  · intro cd st now text h
    simp [scanStepRegistered, scanStep, gateStep, h]
  · intro cd st now text h
    rcases hcls : classify text with j | raw | raw <;>
      simp [scanStepRegistered, scanStep, gateStep, h, hcls]
  · intro cd st now text j h hcls
    constructor <;> simp [scanStepRegistered, scanStep, gateStep, h, hcls]
  · intro cd st o
    exact ⟨rfl, rfl, rfl⟩

theorem scan_busy_discipline_witness :
    (scanStepRegistered 200 ⟨40, true⟩ (.decodeHit 50 (serializePayload demoRec))).2
      = some (.dispatchCheckIn (.obj (payloadFields demoRec))) ∧
    (scanStepRegistered 200 ⟨40, true⟩
        (.decodeHit 50 (serializePayload demoRec))).1.busy = true :=
  scan_busy_discipline.2.2.1 200 ⟨40, true⟩ 50 (serializePayload demoRec)
    (.obj (payloadFields demoRec)) (by decide) rfl

/-- On a successful parse to anything but JSON `null`, the classifier is
the `t === "rsvp" && token` test. -/
theorem classify_eq_of_parse_some (text : String) (j : Json) (hj : j ≠ .null)
    (h : Json.parse text = some j) :
    classify text
      = if isRsvpTag (j.getField "t") && truthyOpt (j.getField "token")
        then .dispatch j else .invalid text := by
  cases j
  case null => exact absurd rfl hj
  all_goals simp [classify, h]

/-- C5 (amended): every decoded text is classified into exactly one of
dispatch / recognized-but-invalid / foreign, the latter two carrying the
raw text unchanged; a parse to an RSVP-kind payload with a non-empty
string token dispatches; a parse to anything non-null lacking the RSVP
kind or carrying a missing or empty token is recognized-but-invalid;
unparseable text — and text parsing to JSON `null`, whose property access
throws and is caught by the same handler — is foreign, `"hello world"`
among it. -/
theorem scan_classification :
    (∀ text : String,
      (∃ j, classify text = .dispatch j) ∨ classify text = .invalid text ∨
        classify text = .foreign text) ∧
    (∀ (text : String) (j : Json),
      Json.parse text = some j →
      j.getField "t" = some (.str "rsvp".data) →
      (∃ s, s ≠ [] ∧ j.getField "token" = some (.str s)) →
      classify text = .dispatch j) ∧
    (∀ (text : String) (j : Json),
      Json.parse text = some j → j ≠ .null →
      (isRsvpTag (j.getField "t") = false ∨ j.getField "token" = none ∨
        j.getField "token" = some (.str [])) →
      classify text = .invalid text) ∧
    (∀ text : String, Json.parse text = none → classify text = .foreign text) ∧
    classify "hello world" = .foreign "hello world" := by
  refine ⟨?_, ?_, ?_, ?_, rfl⟩
  · intro text
    rcases hp : Json.parse text with _ | j
    · right; right
      simp [classify, hp]
    · by_cases hj : j = .null
      · subst hj
        right; right
        simp [classify, hp]
      · rw [classify_eq_of_parse_some text j hj hp]
        by_cases hcond :
            (isRsvpTag (j.getField "t") && truthyOpt (j.getField "token")) = true
        · left
          exact ⟨j, by simp [hcond]⟩
        · right; left
          simp [hcond]
  · intro text j hp ht htok
    obtain ⟨s, hs, htok⟩ := htok
    have hj : j ≠ .null := by
      rintro rfl
      simp [Json.getField] at ht
    rw [classify_eq_of_parse_some text j hj hp]
    have h1 : isRsvpTag (j.getField "t") = true := by
      rw [ht]
      simp [isRsvpTag]
    have h2 : truthyOpt (j.getField "token") = true := by
      rw [htok]
      rcases hd : s with _ | ⟨c, cs⟩
      · exact absurd hd hs
      · rfl
    simp [h1, h2]
  · intro text j hp hj hdisj
    rw [classify_eq_of_parse_some text j hj hp]
    have hcond : (isRsvpTag (j.getField "t") && truthyOpt (j.getField "token")) = false := by
      rcases hdisj with h | h | h
      · simp [h]
      · simp [truthyOpt, h]
      · simp [truthyOpt, h, Json.truthy]
    simp [hcond]
  · intro text hp
    simp [classify, hp]

theorem scan_classification_witness :
    classify "[1,2]" = .invalid "[1,2]" :=
  scan_classification.2.2.1 "[1,2]" (.arr [.num ['1'], .num ['2']]) rfl
    (fun h => Json.noConfusion h) (Or.inl rfl)

/-- C5 counterexample: the text `null` parses structurally, yet the
scanner reports it as a foreign code rather than recognized-but-invalid:
`JSON.parse("null")` succeeds and the subsequent `qrData.t` property
access on `null` throws a `TypeError`, landing in the same `catch` as a
parse failure. -/
theorem scan_null_counterexample :
    Json.parse "null" = some .null ∧
    classify "null" = .foreign "null" ∧
    classify "null" ≠ .invalid "null" := by
  refine ⟨rfl, rfl, ?_⟩
  intro h
  exact ScanClass.noConfusion
    (show ScanClass.foreign "null" = ScanClass.invalid "null" from h)

/-- C7: serialization round-trip — for every registrant record (tokens
generated by `makeToken` are never empty), the scanner's deserialization
of the generator's payload succeeds, classifies as a dispatchable RSVP
payload, and reproduces `token`, `name`, `email`, `phone` and the
redundant `coming` field exactly. -/
theorem payload_roundtrip :
    ∀ r : RsvpRecord, r.token ≠ "" →
      Json.parse (serializePayload r) = some (.obj (payloadFields r)) ∧
      classify (serializePayload r) = .dispatch (.obj (payloadFields r)) ∧
      (Json.obj (payloadFields r)).getField "token" = some (.str r.token.data) ∧
      (Json.obj (payloadFields r)).getField "name" = some (.str r.name.data) ∧
      (Json.obj (payloadFields r)).getField "email" = some (.str r.email.data) ∧
      (Json.obj (payloadFields r)).getField "phone" = some (.str r.phone.data) ∧
      (Json.obj (payloadFields r)).getField "coming" = some (.bool r.coming) := by
  intro r htok
  have hparse := json_parse_serializePayload r
  have htokf : (Json.obj (payloadFields r)).getField "token" = some (.str r.token.data) :=
    rfl
  have hdata : r.token.data ≠ [] := fun hd => htok (congrArg String.mk hd)
  have hcls : classify (serializePayload r) = .dispatch (.obj (payloadFields r)) := by
    rw [classify_eq_of_parse_some _ _ (fun h => Json.noConfusion h) hparse]
    have ht0 : (Json.obj (payloadFields r)).getField "t" = some (.str "rsvp".data) := rfl
    have h1 : isRsvpTag ((Json.obj (payloadFields r)).getField "t") = true := by
      rw [ht0]
      simp [isRsvpTag]
    have h2 : truthyOpt ((Json.obj (payloadFields r)).getField "token") = true := by
      rw [htokf]
      rcases hd : r.token.data with _ | ⟨c, cs⟩
      · exact absurd hd hdata
      · rfl
    simp [h1, h2]
  exact ⟨hparse, hcls, htokf, rfl, rfl, rfl, rfl⟩

theorem payload_roundtrip_witness :
    Json.parse (serializePayload demoRec) = some (.obj (payloadFields demoRec)) ∧
    classify (serializePayload demoRec) = .dispatch (.obj (payloadFields demoRec)) ∧
    (Json.obj (payloadFields demoRec)).getField "token" = some (.str "abc123".data) :=
  ⟨(payload_roundtrip demoRec (by decide)).1,
   (payload_roundtrip demoRec (by decide)).2.1,
   (payload_roundtrip demoRec (by decide)).2.2.1⟩

end Quest
